import Mathlib

/-!
Verification of the seqan3 `qualified` alphabet composition
(`src/include/seqan3/alphabet/quality/qualified.hpp`).

The `qualified` struct pairs a nucleotide alphabet (slot 0) with a quality
alphabet (slot 1).  The header in `src/` contains the `qualified` layer itself
(assignment, `assign_char` / `assign_phred`, `to_char` / `to_phred`,
`complement`, and all cross-type comparison operators).  Its base class
`cartesian_composition` (rank encoding, composite equality) and the component
alphabets `dna4` / `phred42` are not part of the given sources; those are
modelled from the specification, as marked on each definition.
-/

namespace Seqan3

/-- Modelled from the spec: the 4-letter nucleotide sequence alphabet `dna4`
(not in `src/`), with ranks `A=0, C=1, G=2, T=3`. -/
inductive dna4 : Type
  | A
  | C
  | G
  | T
deriving DecidableEq, Fintype

/-- Modelled from the spec: the rank of a `dna4` letter (`A=0, C=1, G=2, T=3`). -/
def dna4.to_rank : dna4 → Nat
  | .A => 0
  | .C => 1
  | .G => 2
  | .T => 3

/-- Modelled from the spec: rank-to-value decoding for `dna4`
(values outside `[0,4)` fall back to the default letter). -/
def dna4.of_rank : Nat → dna4
  | 0 => .A
  | 1 => .C
  | 2 => .G
  | 3 => .T
  | _ => .A

/-- Modelled from the spec: the nucleotide complement `A↔T, C↔G`. -/
def dna4.complement : dna4 → dna4
  | .A => .T
  | .C => .G
  | .G => .C
  | .T => .A

/-- Modelled from the spec: character conversion of a `dna4` letter. -/
def dna4.to_char : dna4 → Char
  | .A => 'A'
  | .C => 'C'
  | .G => 'G'
  | .T => 'T'

/-- Modelled from the spec: the sequence alphabet's character-to-value policy
(characters outside the domain map to the alphabet's default letter). -/
def dna4.assign_char : Char → dna4
  | 'A' => .A
  | 'C' => .C
  | 'G' => .G
  | 'T' => .T
  | _ => .A

/-- Modelled from the spec: `dna4` ordering delegates to rank comparison. -/
def dna4.lt (a b : dna4) : Bool := a.to_rank < b.to_rank

/-- Modelled from the spec: `dna4` ordering delegates to rank comparison. -/
def dna4.le (a b : dna4) : Bool := a.to_rank ≤ b.to_rank

/-- Modelled from the spec: `dna4` ordering delegates to rank comparison. -/
def dna4.gt (a b : dna4) : Bool := b.to_rank < a.to_rank

/-- Modelled from the spec: `dna4` ordering delegates to rank comparison. -/
def dna4.ge (a b : dna4) : Bool := b.to_rank ≤ a.to_rank

/-- Modelled from the spec: the 42-level quality alphabet `phred42`
(not in `src/`); its values are exactly the ranks `0..41`. -/
abbrev phred42 : Type := Fin 42

/-- Modelled from the spec: the phred score of a `phred42` value is its rank. -/
def phred42.to_phred (q : phred42) : Nat := q.val

/-- Modelled from the spec: the quality alphabet's phred-to-value policy;
out-of-range phred scores are clamped to the top of the domain. -/
def phred42.assign_phred (p : Nat) : phred42 :=
  if h : p < 42 then ⟨p, h⟩ else ⟨41, by omega⟩

/-- The `qualified` composition (`qualified.hpp`, lines 96-104): slot 0 holds
the sequence letter, slot 1 the quality letter.  `seq` embeds `get<0>`,
`qual` embeds `get<1>`. -/
structure qualified : Type where
  seq : dna4
  qual : phred42
deriving DecidableEq, Fintype

namespace qualified

/-- Modelled from the spec: the rank of the composite is the mixed-radix
encoding with slot 0 the most significant digit (the encoding lives in the
base class `cartesian_composition`, which is not in `src/`). -/
def to_rank (c : qualified) : Nat := c.seq.to_rank * 42 + c.qual.to_phred

/-- Modelled from the spec: rank decoding of the base class
`cartesian_composition` (not in `src/`), inverse of the mixed-radix encoding. -/
def of_rank (r : Nat) : qualified :=
  ⟨dna4.of_rank (r / 42), ⟨r % 42, Nat.mod_lt r (by omega)⟩⟩

/-- Modelled from the spec: the composite's alphabet size, the number of
distinct composite values. -/
def size : Nat := Fintype.card qualified

/-- `operator=(sequence_alphabet_type)` (lines 121-125): directly assign the
sequence letter. -/
def assign_seq (c : qualified) (l : dna4) : qualified := { c with seq := l }

/-- `operator=(quality_alphabet_type)` (lines 128-132): directly assign the
quality letter. -/
def assign_qual (c : qualified) (l : phred42) : qualified := { c with qual := l }

/-- `assign_char` (lines 135-139): assign from a character; modifies the
internal sequence letter via the sequence alphabet's policy. -/
def assign_char (c : qualified) (ch : Char) : qualified :=
  { c with seq := dna4.assign_char ch }

/-- `assign_phred` (lines 142-146): assign from a phred value; modifies the
internal quality letter via the quality alphabet's policy. -/
def assign_phred (c : qualified) (p : Nat) : qualified :=
  { c with qual := phred42.assign_phred p }

/-- `to_phred` (lines 153-156): reads the internal quality letter. -/
def to_phred (c : qualified) : Nat := phred42.to_phred c.qual

/-- `to_char` (lines 159-162): reads the internal sequence letter. -/
def to_char (c : qualified) : Char := dna4.to_char c.seq

/-- `complement` (lines 168-172): quality preserved, sequence letter
complemented. -/
def complement (c : qualified) : qualified := ⟨dna4.complement c.seq, c.qual⟩

/-- Modelled from the spec: composite-vs-composite equality inherited from
`cartesian_composition` (not in `src/`) is rank equality. -/
def eq_comp (a b : qualified) : Bool := a.to_rank == b.to_rank

/-- Modelled from the spec: composite-vs-composite inequality inherited from
`cartesian_composition` (not in `src/`). -/
def ne_comp (a b : qualified) : Bool := !(a.eq_comp b)

/-- Member `operator==(sequence_alphabet_t)` (lines 190-193). -/
def eq_seq (c : qualified) (rhs : dna4) : Bool := c.seq == rhs

/-- Member `operator!=(sequence_alphabet_t)` (lines 196-199). -/
def ne_seq (c : qualified) (rhs : dna4) : Bool := c.seq != rhs

/-- Member `operator<(sequence_alphabet_t)` (lines 202-205). -/
def lt_seq (c : qualified) (rhs : dna4) : Bool := dna4.lt c.seq rhs

/-- Member `operator>(sequence_alphabet_t)` (lines 208-211). -/
def gt_seq (c : qualified) (rhs : dna4) : Bool := dna4.gt c.seq rhs

/-- Member `operator<=(sequence_alphabet_t)` (lines 214-217). -/
def le_seq (c : qualified) (rhs : dna4) : Bool := dna4.le c.seq rhs

/-- Member `operator>=(sequence_alphabet_t)` (lines 220-223). -/
def ge_seq (c : qualified) (rhs : dna4) : Bool := dna4.ge c.seq rhs

/-- Friend `operator==(sequence_alphabet_t, qualified)` (lines 233-236):
defined as `rhs == lhs`. -/
def eq_seq_left (lhs : dna4) (rhs : qualified) : Bool := rhs.eq_seq lhs

/-- Friend `operator!=(sequence_alphabet_t, qualified)` (lines 239-242):
defined as `rhs != lhs`. -/
def ne_seq_left (lhs : dna4) (rhs : qualified) : Bool := rhs.ne_seq lhs

/-- Friend `operator<(sequence_alphabet_t, qualified)` (lines 245-248):
defined as `rhs > lhs`. -/
def lt_seq_left (lhs : dna4) (rhs : qualified) : Bool := rhs.gt_seq lhs

/-- Friend `operator>(sequence_alphabet_t, qualified)` (lines 251-254):
defined as `rhs < lhs`. -/
def gt_seq_left (lhs : dna4) (rhs : qualified) : Bool := rhs.lt_seq lhs

/-- Friend `operator<=(sequence_alphabet_t, qualified)` (lines 257-260):
defined as `rhs >= lhs`. -/
def le_seq_left (lhs : dna4) (rhs : qualified) : Bool := rhs.ge_seq lhs

/-- Friend `operator>=(sequence_alphabet_t, qualified)` (lines 263-266):
defined as `rhs <= lhs`. -/
def ge_seq_left (lhs : dna4) (rhs : qualified) : Bool := rhs.le_seq lhs

/-- Member `operator==(quality_alphabet_t)` (lines 276-279). -/
def eq_qual (c : qualified) (rhs : phred42) : Bool := c.qual == rhs

/-- Member `operator!=(quality_alphabet_t)` (lines 282-285). -/
def ne_qual (c : qualified) (rhs : phred42) : Bool := c.qual != rhs

/-- Member `operator<(quality_alphabet_t)` (lines 288-291). -/
def lt_qual (c : qualified) (rhs : phred42) : Bool := decide (c.qual < rhs)

/-- Member `operator>(quality_alphabet_t)` (lines 294-297). -/
def gt_qual (c : qualified) (rhs : phred42) : Bool := decide (rhs < c.qual)

/-- Member `operator<=(quality_alphabet_t)` (lines 300-303). -/
def le_qual (c : qualified) (rhs : phred42) : Bool := decide (c.qual ≤ rhs)

/-- Member `operator>=(quality_alphabet_t)` (lines 306-309). -/
def ge_qual (c : qualified) (rhs : phred42) : Bool := decide (rhs ≤ c.qual)

/-- Friend `operator==(quality_alphabet_t, qualified)` (lines 319-322):
defined as `rhs == lhs`. -/
def eq_qual_left (lhs : phred42) (rhs : qualified) : Bool := rhs.eq_qual lhs

/-- Friend `operator!=(quality_alphabet_t, qualified)` (lines 325-328):
defined as `rhs != lhs`. -/
def ne_qual_left (lhs : phred42) (rhs : qualified) : Bool := rhs.ne_qual lhs

/-- Friend `operator<(quality_alphabet_t, qualified)` (lines 331-334):
defined as `rhs > lhs`. -/
def lt_qual_left (lhs : phred42) (rhs : qualified) : Bool := rhs.gt_qual lhs

/-- Friend `operator>(quality_alphabet_t, qualified)` (lines 337-340):
defined as `rhs < lhs`. -/
def gt_qual_left (lhs : phred42) (rhs : qualified) : Bool := rhs.lt_qual lhs

/-- Friend `operator<=(quality_alphabet_t, qualified)` (lines 343-346):
defined as `rhs >= lhs`. -/
def le_qual_left (lhs : phred42) (rhs : qualified) : Bool := rhs.ge_qual lhs

/-- Friend `operator>=(quality_alphabet_t, qualified)` (lines 349-352):
defined as `rhs <= lhs`. -/
def ge_qual_left (lhs : phred42) (rhs : qualified) : Bool := rhs.le_qual lhs

end qualified

end Seqan3

namespace Seqan3

/-- Claim C1: for the qualified composite over `dna4` (ranks `A=0,C=1,G=2,T=3`)
and the 42-level `phred42`, the composite rank is the mixed-radix encoding with
slot 0 most significant: `(A, 7)` has rank `0*42 + 7 = 7`, and its complement
is `(T, 7)` with rank `3*42 + 7 = 133`. -/
theorem qualified.rank_mixed_radix_example :
    (qualified.mk dna4.A 7).to_rank = 0 * 42 + 7 ∧
    (qualified.mk dna4.A 7).complement = qualified.mk dna4.T 7 ∧
    ((qualified.mk dna4.A 7).complement).to_rank = 3 * 42 + 7 := by
  decide

set_option maxRecDepth 8000 in
/-- Claim C2: decoding the rank of any composite and re-encoding reproduces the
composite; encoding the decoding of any rank below `size` reproduces the rank;
and the composite's size is the product of the component alphabet sizes, so the
tuple-to-rank mapping is a bijection. -/
theorem qualified.rank_bijection :
    (∀ c : qualified, qualified.of_rank c.to_rank = c) ∧
    (∀ r : Nat, r < qualified.size → (qualified.of_rank r).to_rank = r) ∧
    qualified.size = Fintype.card dna4 * Fintype.card phred42 := by
  refine ⟨?_, ?_, ?_⟩
  · intro c
    obtain ⟨s, q⟩ := c
    revert q
    cases s <;> decide
  · intro r hr
    have h : ∀ r : Nat, r < 168 → (qualified.of_rank r).to_rank = r := by decide
    have hs : qualified.size = 168 := by decide
    exact h r (hs ▸ hr)
  · decide

set_option maxRecDepth 8000 in
/-- Witness for C2: rank 133 is below the composite size, and decoding then
re-encoding it yields 133 again. -/
theorem qualified.rank_bijection_witness :
    (133 : Nat) < qualified.size ∧ (qualified.of_rank 133).to_rank = 133 :=
  ⟨by decide, qualified.rank_bijection.2.1 133 (by decide)⟩

/-- Claim C3: `assign_char` overwrites only slot 0 via the sequence alphabet's
character policy and leaves slot 1 unchanged; `assign_phred` overwrites only
slot 1 via the quality alphabet's phred policy and leaves slot 0 unchanged. -/
theorem qualified.assign_char_phred_frame :
    (∀ (c : qualified) (ch : Char),
       (c.assign_char ch).seq = dna4.assign_char ch ∧
       (c.assign_char ch).qual = c.qual) ∧
    (∀ (c : qualified) (p : Nat),
       (c.assign_phred p).qual = phred42.assign_phred p ∧
       (c.assign_phred p).seq = c.seq) :=
  ⟨fun _ _ => ⟨rfl, rfl⟩, fun _ _ => ⟨rfl, rfl⟩⟩

/-- Claim C4: the per-type assignment operators update exactly the slot of the
assigned component type and leave the other slot unchanged; assigning the
quality value with phred 41 into `(A, 7)` yields `(A, 41)` with rank
`0*42 + 41 = 41`. -/
theorem qualified.per_type_assign_frame :
    (∀ (c : qualified) (l : dna4), c.assign_seq l = qualified.mk l c.qual) ∧
    (∀ (c : qualified) (l : phred42), c.assign_qual l = qualified.mk c.seq l) ∧
    (qualified.mk dna4.A 7).assign_qual 41 = qualified.mk dna4.A 41 ∧
    ((qualified.mk dna4.A 7).assign_qual 41).to_rank = 0 * 42 + 41 :=
  ⟨fun _ _ => rfl, fun _ _ => rfl, by decide, by decide⟩

/-- Claim C5: `complement` returns a composite whose slot 0 is the nucleotide
complement of the input's slot 0 and whose slot 1 equals the input's slot 1
exactly (the operation is a pure function of its input). -/
theorem qualified.complement_slots :
    ∀ c : qualified,
      (c.complement).seq = dna4.complement c.seq ∧ (c.complement).qual = c.qual :=
  fun _ => ⟨rfl, rfl⟩

/-- Claim C6: under the hypothesis that the component complement is involutive,
`q.complement.complement = q` for every qualified value `q`, and the quality
slot of `q.complement` equals the quality slot of `q`. -/
theorem qualified.complement_involutive
    (h : ∀ x : dna4, dna4.complement (dna4.complement x) = x) :
    ∀ c : qualified,
      c.complement.complement = c ∧ (c.complement).qual = c.qual := by
  intro c
  obtain ⟨s, q⟩ := c
  exact ⟨by simp only [qualified.complement, h], rfl⟩

/-- Witness for C6: `dna4`'s complement is involutive, and the double
complement of `(A, 7)` is `(A, 7)` again. -/
theorem qualified.complement_involutive_witness :
    (qualified.mk dna4.A 7).complement.complement = qualified.mk dna4.A 7 ∧
    ((qualified.mk dna4.A 7).complement).qual = (qualified.mk dna4.A 7).qual :=
  qualified.complement_involutive (by decide) (qualified.mk dna4.A 7)

/-- Claim C7: every comparison between a composite and a bare sequence value
reads only slot 0 (the result is unchanged when only the quality slot differs,
and two composites differing only in quality both compare equal to their shared
sequence letter), and every comparison between a composite and a bare quality
value reads only slot 1. -/
theorem qualified.cross_compare_reads_one_slot :
    (∀ (s : dna4) (q1 q2 : phred42) (v : dna4),
       (qualified.mk s q1).eq_seq v = (qualified.mk s q2).eq_seq v ∧
       (qualified.mk s q1).ne_seq v = (qualified.mk s q2).ne_seq v ∧
       (qualified.mk s q1).lt_seq v = (qualified.mk s q2).lt_seq v ∧
       (qualified.mk s q1).gt_seq v = (qualified.mk s q2).gt_seq v ∧
       (qualified.mk s q1).le_seq v = (qualified.mk s q2).le_seq v ∧
       (qualified.mk s q1).ge_seq v = (qualified.mk s q2).ge_seq v) ∧
    (∀ (s : dna4) (q1 q2 : phred42),
       (qualified.mk s q1).eq_seq s = true ∧ (qualified.mk s q2).eq_seq s = true) ∧
    (∀ (s1 s2 : dna4) (q : phred42) (v : phred42),
       (qualified.mk s1 q).eq_qual v = (qualified.mk s2 q).eq_qual v ∧
       (qualified.mk s1 q).ne_qual v = (qualified.mk s2 q).ne_qual v ∧
       (qualified.mk s1 q).lt_qual v = (qualified.mk s2 q).lt_qual v ∧
       (qualified.mk s1 q).gt_qual v = (qualified.mk s2 q).gt_qual v ∧
       (qualified.mk s1 q).le_qual v = (qualified.mk s2 q).le_qual v ∧
       (qualified.mk s1 q).ge_qual v = (qualified.mk s2 q).ge_qual v) :=
  ⟨fun _ _ _ _ => ⟨rfl, rfl, rfl, rfl, rfl, rfl⟩,
   fun s _ _ => by cases s <;> exact ⟨rfl, rfl⟩,
   fun _ _ _ _ => ⟨rfl, rfl, rfl, rfl, rfl, rfl⟩⟩

/-- Claim C8: the value-on-left comparison forms are consistent reversals of
the composite-on-left forms, for both the sequence and the quality component:
`v == q` agrees with `q == v`, `v < q` with `q > v`, and so on. -/
theorem qualified.cross_compare_reversal :
    (∀ (v : dna4) (q : qualified),
       qualified.eq_seq_left v q = q.eq_seq v ∧
       qualified.ne_seq_left v q = q.ne_seq v ∧
       qualified.lt_seq_left v q = q.gt_seq v ∧
       qualified.gt_seq_left v q = q.lt_seq v ∧
       qualified.le_seq_left v q = q.ge_seq v ∧
       qualified.ge_seq_left v q = q.le_seq v) ∧
    (∀ (v : phred42) (q : qualified),
       qualified.eq_qual_left v q = q.eq_qual v ∧
       qualified.ne_qual_left v q = q.ne_qual v ∧
       qualified.lt_qual_left v q = q.gt_qual v ∧
       qualified.gt_qual_left v q = q.lt_qual v ∧
       qualified.le_qual_left v q = q.ge_qual v ∧
       qualified.ge_qual_left v q = q.le_qual v) :=
  ⟨fun _ _ => ⟨rfl, rfl, rfl, rfl, rfl, rfl⟩,
   fun _ _ => ⟨rfl, rfl, rfl, rfl, rfl, rfl⟩⟩

/-- Claim C9: `to_char` equals the character conversion of slot 0 and
`to_phred` equals the phred conversion of slot 1, for every qualified value
(both are pure functions); on `(A, 7)` they yield the character of `A` and the
phred score 7. -/
theorem qualified.to_char_to_phred_delegate :
    (∀ c : qualified,
       c.to_char = dna4.to_char c.seq ∧ c.to_phred = phred42.to_phred c.qual) ∧
    (qualified.mk dna4.A 7).to_char = dna4.to_char dna4.A ∧
    (qualified.mk dna4.A 7).to_phred = 7 :=
  ⟨fun _ => ⟨rfl, rfl⟩, rfl, rfl⟩

/-- Claim C10: cross-type equality is coarser than composite equality:
`(A, 7)` and `(A, 8)` are unequal as composites, yet both compare equal to
the bare sequence value `A` (in either operand order). -/
theorem qualified.cross_eq_not_congruence :
    qualified.ne_comp (qualified.mk dna4.A 7) (qualified.mk dna4.A 8) = true ∧
    (qualified.mk dna4.A 7).eq_seq dna4.A = true ∧
    qualified.eq_seq_left dna4.A (qualified.mk dna4.A 8) = true := by
  decide

end Seqan3
